import Mathlib

/-!
Shallow embedding of `internal/jsonschema/schema.go` from the issuer-node
repository: the schema attribute extraction (`AttributeNames`), the attribute
validation/conversion routine (`ValidateAndConvert`) and its helpers
(`findIndexForSchemaAttribute`, `validateCredentialLinkAttribute`,
`removeIndex`), together with models of the Go standard-library functions
they call (`strconv.Atoi`, `strconv.ParseBool`) and of
`mapstructure.Decode` restricted to the `Attribute` struct.

Go `map[string]any` values (the decoded JSON document) are modelled as
association lists of string keys and `JValue`s; Go map iteration order is
unspecified, so the list order stands for one arbitrary iteration order.
A Go slice out-of-range access (a panic) is modelled by the distinguished
result `ConvResult.crash`.
-/

set_option autoImplicit false
set_option linter.unnecessarySeqFocus false

namespace IssuerNode

/-- A decoded JSON value as Go's `encoding/json` produces into `any`:
strings, numbers, booleans, arrays and nested objects (objects as
association lists standing for `map[string]any`). -/
inductive JValue where
  | str (s : String)
  | num (n : Int)
  | bool (b : Bool)
  | arr (elems : List JValue)
  | obj (fields : List (String × JValue))
deriving Repr

/-- Go struct `Attribute { ID, Title, Type, Format string }` from schema.go. -/
structure Attribute where
  id : String
  title : String
  type : String
  format : String
deriving Repr, DecidableEq

/-- Modelled from the spec: the caller-side credential attribute
`domain.CredentialAttributes` (its declaration lives outside the visible
source); the spec gives its wire shape as a name/value pair with a
dynamically typed value, accessed in schema.go via `.Name` and `.Value`. -/
structure CredentialAttributes where
  name : String
  value : JValue
deriving Repr

/-- Lookup in a Go `map[string]any` modelled as an association list:
`m[k]` (the key occurs at most once in a Go map; `find?` takes the first). -/
def jlookup (m : List (String × JValue)) (k : String) : Option JValue :=
  (m.find? (fun kv => kv.1 = k)).map (fun kv => kv.2)

/-- Go type assertion `v.(map[string]any)`: succeeds exactly on an object
value (a missing key yields `nil`, on which the assertion also fails). -/
def asObj : Option JValue → Option (List (String × JValue))
  | some (JValue.obj fs) => some fs
  | _ => none

/-- ASCII case-insensitive character comparison: the fragment of Go's
`strings.EqualFold` that mapstructure's field matching exercises on the
ASCII field names of the `Attribute` struct. -/
def charFoldEq (a b : Char) : Bool :=
  a.toNat == b.toNat ||
    (65 ≤ a.toNat && a.toNat ≤ 90 && a.toNat + 32 == b.toNat) ||
    (65 ≤ b.toNat && b.toNat ≤ 90 && b.toNat + 32 == a.toNat)

/-- Case-insensitive equality of two character lists. -/
def eqFoldList : List Char → List Char → Bool
  | [], [] => true
  | a :: as, b :: bs => charFoldEq a b && eqFoldList as bs
  | _, _ => false

/-- Go mapstructure's case-insensitive match of a map key against a struct
field name (`strings.EqualFold`). -/
def fieldNameMatches (key field : String) : Bool :=
  eqFoldList key.toList field.toList

/-- Model of one string field of `mapstructure.Decode` into the `Attribute`
struct: mapstructure matches map keys to struct field names
case-insensitively; a present key whose value is not a string is a decode
error, a missing key leaves the zero value `""`. -/
def decodeStrField (fs : List (String × JValue)) (field : String) : Except Unit String :=
  match (fs.find? (fun kv => fieldNameMatches kv.1 field)).map (fun kv => kv.2) with
  | none => Except.ok ""
  | some (JValue.str s) => Except.ok s
  | some _ => Except.error ()

/-- Model of `mapstructure.Decode(prop, &attr)` for `attr : Attribute`:
the input must be a mapping, and each of the four string fields decodes
as in `decodeStrField`; unknown keys are ignored. -/
def decodeAttribute (prop : JValue) : Except Unit Attribute :=
  match prop with
  | JValue.obj fs =>
      match decodeStrField fs "id", decodeStrField fs "title",
            decodeStrField fs "type", decodeStrField fs "format" with
      | Except.ok i, Except.ok t, Except.ok ty, Except.ok f =>
          Except.ok ⟨i, t, ty, f⟩
      | _, _, _, _ => Except.error ()
  | _ => Except.error ()

/-- The errors `AttributeNames` returns: the three distinct
`errors.New("missing ... field")` values for the path levels, and the
`fmt.Errorf("parsing attribute <%s>: %w", prop, err)` wrap of a
mapstructure failure, which carries the offending sub-mapping value
`prop` (not the map key). -/
inductive ExtractErr where
  | missingProperties
  | missingCredentialSubject
  | missingCredSubjectProperties
  | decoding (prop : JValue)
deriving Repr

/-- The literal Go error message of each `ExtractErr`; for `decoding` only
the fixed surrounding text is reproduced, the `%s` rendering of the
sub-mapping and the wrapped mapstructure message are abstracted. -/
def ExtractErr.message : ExtractErr → String
  | ExtractErr.missingProperties => "missing properties field"
  | ExtractErr.missingCredentialSubject => "missing properties.credentialSubject field"
  | ExtractErr.missingCredSubjectProperties => "missing properties.credentialSubject.properties field"
  | ExtractErr.decoding _ => "parsing attribute"

/-- The decode loop of `AttributeNames`: for each key/value of the innermost
properties mapping, `mapstructure.Decode` the value and override the id
with the map key, failing on the first malformed entry. -/
def decodeAttrList : List (String × JValue) → Except ExtractErr (List Attribute)
  | [] => Except.ok []
  | (id, prop) :: rest =>
      match decodeAttribute prop with
      | Except.error _ => Except.error (ExtractErr.decoding prop)
      | Except.ok attr =>
          match decodeAttrList rest with
          | Except.error e => Except.error e
          | Except.ok attrs => Except.ok ({ attr with id := id } :: attrs)

/-- Go `func (s *JSONSchema) AttributeNames() (Attributes, error)`:
navigates `properties.credentialSubject.properties` with a distinct error
per missing/wrong-typed level, then decodes each sub-mapping. -/
def attributeNames (content : List (String × JValue)) : Except ExtractErr (List Attribute) :=
  match asObj (jlookup content "properties") with
  | none => Except.error ExtractErr.missingProperties
  | some props =>
      match asObj (jlookup props "credentialSubject") with
      | none => Except.error ExtractErr.missingCredentialSubject
      | some credSubject =>
          match asObj (jlookup credSubject "properties") with
          | none => Except.error ExtractErr.missingCredSubjectProperties
          | some innerProps => decodeAttrList innerProps

/-- Strips the optional sign of `strconv.ParseInt`'s base-10 input:
returns (negative?, remaining characters). -/
def splitSign : List Char → Bool × List Char
  | '+' :: rest => (false, rest)
  | '-' :: rest => (true, rest)
  | cs => (false, cs)

/-- Accumulating base-10 digit parser: fails on the first non-digit. -/
def parseDigitsAux : List Char → Nat → Option Nat
  | [], acc => some acc
  | c :: cs, acc =>
      if c.isDigit then parseDigitsAux cs (acc * 10 + (c.toNat - 48)) else none

/-- Parses one or more base-10 digits (empty input is a syntax error, as in
`strconv.ParseInt`). -/
def parseDigits : List Char → Option Nat
  | [] => none
  | c :: cs => parseDigitsAux (c :: cs) 0

/-- Smallest value of Go's 64-bit `int`, -(2^63). -/
def int64Min : Int := -9223372036854775808

/-- Largest value of Go's 64-bit `int`, 2^63 - 1. -/
def int64Max : Int := 9223372036854775807

/-- Model of Go `strconv.Atoi`, i.e. `ParseInt(s, 10, 0)` with `int` taken
as 64-bit: an optional sign, then one or more decimal digits, rejecting
values outside the signed 64-bit range (Go returns `ErrRange` there and
the caller treats any non-nil error as failure). -/
def atoi (s : String) : Option Int :=
  let sd := splitSign s.toList
  match parseDigits sd.2 with
  | none => none
  | some n =>
      let v : Int := if sd.1 then -(n : Int) else (n : Int)
      if v < int64Min ∨ int64Max < v then none else some v

/-- Model of Go `strconv.ParseBool`: accepts exactly
1, t, T, TRUE, true, True, 0, f, F, FALSE, false, False. -/
def parseBool (s : String) : Option Bool :=
  if s = "1" ∨ s = "t" ∨ s = "T" ∨ s = "TRUE" ∨ s = "true" ∨ s = "True" then some true
  else if s = "0" ∨ s = "f" ∨ s = "F" ∨ s = "FALSE" ∨ s = "false" ∨ s = "False" then some false
  else none

/-- The distinct errors `ValidateAndConvert` and its helper build: one
constructor per distinct `newCredentialLinkAttributeError` message plus
the generic `ErrProcessSchema`. -/
inductive ConvErr where
  | processSchema
  | typeMismatch (name : String)
  | notAnInteger (name : String)
  | notABoolean (name : String)
  | unsupportedType (name : String)
  | countMismatch
deriving Repr, DecidableEq

/-- The literal Go message of each `ConvErr` (`ErrProcessSchema` is
`errors.New("cannot process schema")`, the rest are
`newCredentialLinkAttributeError` messages built with `fmt.Sprintf`). -/
def ConvErr.message : ConvErr → String
  | ConvErr.processSchema => "cannot process schema"
  | ConvErr.typeMismatch name => s!"error converting the attribute: {name}"
  | ConvErr.notAnInteger name => s!"error converting the attribute: {name}. Must be an integer"
  | ConvErr.notABoolean name => s!"error converting the attribute: {name}. Must be a boolean"
  | ConvErr.unsupportedType name => s!"error converting the attribute: {name}. type not supported"
  | ConvErr.countMismatch => "the number of attributes is not valid"

/-- Go `func validateCredentialLinkAttribute(schemaAttribute Attribute,
attributeLinkName string, attributeLinkValue interface{}) (interface{}, error)`:
the three-branch type switch on the declared type. -/
def validateCredentialLinkAttribute (schemaAttribute : Attribute)
    (attributeLinkName : String) (attributeLinkValue : JValue) : Except ConvErr JValue :=
  if schemaAttribute.type = "string" then
    match attributeLinkValue with
    | JValue.str s => Except.ok (JValue.str s)
    | _ => Except.error (ConvErr.typeMismatch attributeLinkName)
  else if schemaAttribute.type = "integer" then
    match attributeLinkValue with
    | JValue.str s =>
        match atoi s with
        | some n => Except.ok (JValue.num n)
        | none => Except.error (ConvErr.notAnInteger attributeLinkName)
    | _ => Except.error (ConvErr.typeMismatch attributeLinkName)
  else if schemaAttribute.type = "boolean" then
    match attributeLinkValue with
    | JValue.str s =>
        match parseBool s with
        | some b => Except.ok (JValue.bool b)
        | none => Except.error (ConvErr.notABoolean attributeLinkName)
    | _ => Except.error (ConvErr.typeMismatch attributeLinkName)
  else Except.error (ConvErr.unsupportedType attributeLinkName)

/-- The loop of `findIndexForSchemaAttribute` with its running index. -/
def findIndexAux : List Attribute → String → Nat → Int
  | [], _, _ => -1
  | a :: rest, name, i =>
      if a.id = name then (i : Int) else findIndexAux rest name (i + 1)

/-- Go `func findIndexForSchemaAttribute(attributes Attributes, name string) int`:
index of the first descriptor whose ID equals `name`, or -1. -/
def findIndexForSchemaAttribute (attributes : List Attribute) (name : String) : Int :=
  findIndexAux attributes name 0

/-- Go `func removeIndex(s []Attribute, index int) []Attribute`:
`append(s[:index], s[index+1:]...)`, called with a valid index. -/
def removeIndex (s : List Attribute) (index : Nat) : List Attribute :=
  s.take index ++ s.drop (index + 1)

/-- Outcome of `ValidateAndConvert`: a converted attribute list, a returned
error, or `crash` when the Go code panics (the unchecked `-1` slice index). -/
inductive ConvResult where
  | ok (attrs : List CredentialAttributes)
  | error (e : ConvErr)
  | crash
deriving Repr

/-- The `for i, attributeLink := range credentialAttributes` loop of
`ValidateAndConvert` followed by its final count check: `acc` holds the
already-converted prefix in reverse (Go writes in place into the slice).
The unchecked `schemaAttributes[index]` access with `index = -1` is the
panic modelled by `crash`. -/
def validateLoop : List CredentialAttributes → List Attribute → List CredentialAttributes → ConvResult
  | [], schemaAttributes, acc =>
      if schemaAttributes.length ≠ 1 then ConvResult.error ConvErr.countMismatch
      else ConvResult.ok acc.reverse
  | attributeLink :: rest, schemaAttributes, acc =>
      let index := findIndexForSchemaAttribute schemaAttributes attributeLink.name
      if index < 0 then ConvResult.crash
      else
        match schemaAttributes[index.toNat]? with
        | none => ConvResult.crash
        | some schemaAttribute =>
            match validateCredentialLinkAttribute schemaAttribute attributeLink.name
                attributeLink.value with
            | Except.error e => ConvResult.error e
            | Except.ok v =>
                validateLoop rest (removeIndex schemaAttributes index.toNat)
                  ({ attributeLink with value := v } :: acc)

/-- Go `func (s *JSONSchema) ValidateAndConvert(credentialAttributes
[]domain.CredentialAttributes) ([]domain.CredentialAttributes, error)`:
extracts the schema attributes (any extraction error is collapsed to
`ErrProcessSchema`), then runs the conversion loop. -/
def validateAndConvert (content : List (String × JValue))
    (credentialAttributes : List CredentialAttributes) : ConvResult :=
  match attributeNames content with
  | Except.error _ => ConvResult.error ConvErr.processSchema
  | Except.ok schemaAttributes => validateLoop credentialAttributes schemaAttributes []

/-- The working descriptor set that remains after the matching pass of
`validateLoop` when every supplied attribute finds a descriptor and its
value converts without error, and `none` otherwise: the notion the spec's
"exactly one descriptor must remain unmatched after the pass" refers to. -/
def remainingDescriptors : List CredentialAttributes → List Attribute → Option (List Attribute)
  | [], schemaAttributes => some schemaAttributes
  | attributeLink :: rest, schemaAttributes =>
      let index := findIndexForSchemaAttribute schemaAttributes attributeLink.name
      if index < 0 then none
      else
        match schemaAttributes[index.toNat]? with
        | none => none
        | some schemaAttribute =>
            match validateCredentialLinkAttribute schemaAttribute attributeLink.name
                attributeLink.value with
            | Except.error _ => none
            | Except.ok _ => remainingDescriptors rest (removeIndex schemaAttributes index.toNat)

/-- Spec-side grammar of "a string containing a base-10 integer literal":
an optional sign followed by one or more decimal digits. -/
def specIntegerLiteral (s : String) : Bool :=
  let sd := splitSign s.toList
  !sd.2.isEmpty && sd.2.all Char.isDigit

/-- Value of a base-10 digit string. -/
def digitsValue (cs : List Char) : Nat :=
  cs.foldl (fun acc c => acc * 10 + (c.toNat - 48)) 0

/-- The mathematical integer a base-10 integer literal denotes. -/
def specLiteralValue (s : String) : Int :=
  let sd := splitSign s.toList
  if sd.1 then -(digitsValue sd.2 : Int) else (digitsValue sd.2 : Int)

/-- Example schema document: three attributes age:integer (with a title),
name:string and id:string; the id sub-mapping carries a bogus inner id
field that extraction must override with the map key. -/
def docExample : List (String × JValue) :=
  [("properties", JValue.obj
    [("credentialSubject", JValue.obj
      [("properties", JValue.obj
        [("age", JValue.obj [("type", JValue.str "integer"), ("title", JValue.str "Age")]),
         ("name", JValue.obj [("type", JValue.str "string")]),
         ("id", JValue.obj [("type", JValue.str "string"), ("id", JValue.str "bogus")])])])])]

/-- The descriptors extracted from `docExample`. -/
def descExample : List Attribute :=
  [⟨"age", "Age", "integer", ""⟩, ⟨"name", "", "string", ""⟩, ⟨"id", "", "string", ""⟩]

/-- Two supplied attributes leaving the id descriptor unmatched. -/
def attrsTwo : List CredentialAttributes :=
  [⟨"age", JValue.str "42"⟩, ⟨"name", JValue.str "alice"⟩]

/-- The converted form of `attrsTwo`: same names, values coerced. -/
def attrsTwoConverted : List CredentialAttributes :=
  [⟨"age", JValue.num 42⟩, ⟨"name", JValue.str "alice"⟩]

/-- Three supplied attributes covering every descriptor of `docExample`,
so that zero descriptors remain after the pass. -/
def attrsThree : List CredentialAttributes :=
  [⟨"age", JValue.str "42"⟩, ⟨"name", JValue.str "alice"⟩, ⟨"id", JValue.str "did:x"⟩]

/-- A schema document declaring only the reserved id descriptor. -/
def docSingle : List (String × JValue) :=
  [("properties", JValue.obj
    [("credentialSubject", JValue.obj
      [("properties", JValue.obj
        [("id", JValue.obj [("type", JValue.str "string")])])])])]

/-- The single descriptor extracted from `docSingle`. -/
def descSingle : List Attribute := [⟨"id", "", "string", ""⟩]

/-- A malformed attribute sub-mapping: the type field holds a number. -/
def badProp : JValue := JValue.obj [("type", JValue.num 5)]

/-- A document whose only attribute, under key "age", is malformed. -/
def docBadAge : List (String × JValue) :=
  [("properties", JValue.obj
    [("credentialSubject", JValue.obj
      [("properties", JValue.obj [("age", badProp)])])])]

/-- The same document with the malformed sub-mapping under key "name". -/
def docBadName : List (String × JValue) :=
  [("properties", JValue.obj
    [("credentialSubject", JValue.obj
      [("properties", JValue.obj [("name", badProp)])])])]

/-- A document with one well-formed attribute followed by a malformed one. -/
def docBadSecond : List (String × JValue) :=
  [("properties", JValue.obj
    [("credentialSubject", JValue.obj
      [("properties", JValue.obj
        [("name", JValue.obj [("type", JValue.str "string")]),
         ("age", badProp)])])])]

theorem parseDigitsAux_eq (cs : List Char) (acc : Nat) :
    parseDigitsAux cs acc =
      if cs.all Char.isDigit then some (cs.foldl (fun a c => a * 10 + (c.toNat - 48)) acc)
      else none := by
  induction cs generalizing acc with
  | nil => simp [parseDigitsAux]
  | cons c cs ih =>
      by_cases h : c.isDigit <;> simp [parseDigitsAux, h, ih]

theorem parseDigits_eq (cs : List Char) :
    parseDigits cs =
      if !cs.isEmpty && cs.all Char.isDigit then some (digitsValue cs) else none := by
  cases cs with
  | nil => simp [parseDigits]
  | cons c cs => simp [parseDigits, parseDigitsAux_eq, digitsValue]

theorem atoi_eq (s : String) :
    atoi s =
      if specIntegerLiteral s = true ∧ int64Min ≤ specLiteralValue s ∧ specLiteralValue s ≤ int64Max
      then some (specLiteralValue s) else none := by
  simp only [atoi, specIntegerLiteral, specLiteralValue, parseDigits_eq]
  rcases hsd : splitSign s.toList with ⟨neg, ds⟩
  by_cases hne : ds.isEmpty
  · simp [hne]
  · by_cases hall : ds.all Char.isDigit
    · rcases neg with _ | _ <;>
        · simp only [hne, hall, Bool.not_true, Bool.not_false, Bool.and_self, Bool.true_and,
            Bool.and_true, if_true, if_false, Bool.false_and, ite_true, ite_false]
          split_ifs <;> first
            | rfl
            | ((simp [int64Min, int64Max] at *) <;> omega)
    · simp [hne, hall]

/-- C5 (amended): for every descriptor of declared type "integer", the
conversion of a matched attribute succeeds with the parsed value exactly
when the supplied value is a string containing a base-10 integer literal
whose value fits the signed 64-bit range; an in-grammar but out-of-range
or unparseable string fails with the ParseError message, and a non-string
value fails with the TypeMismatchError message. -/
theorem integer_conversion_iff_in_range_literal (a : Attribute) (name : String) (v : JValue)
    (ha : a.type = "integer") :
    validateCredentialLinkAttribute a name v =
      match v with
      | JValue.str s =>
          if specIntegerLiteral s = true ∧
              int64Min ≤ specLiteralValue s ∧ specLiteralValue s ≤ int64Max
          then Except.ok (JValue.num (specLiteralValue s))
          else Except.error (ConvErr.notAnInteger name)
      | _ => Except.error (ConvErr.typeMismatch name) := by
  cases v <;> simp [validateCredentialLinkAttribute, ha, atoi_eq] <;> (split_ifs <;> rfl)

/-- Witness for C5 (amended): descriptor age:integer with value "42"
converts to the integer 42. -/
theorem integer_conversion_iff_in_range_literal_witness :
    validateCredentialLinkAttribute ⟨"age", "", "integer", ""⟩ "age" (JValue.str "42")
      = Except.ok (JValue.num 42) := by
  rw [integer_conversion_iff_in_range_literal ⟨"age", "", "integer", ""⟩ "age"
    (JValue.str "42") rfl]
  rfl

/-- C5 counterexample: "9223372036854775808" (2^63) is a string containing
a base-10 integer literal, yet the integer conversion rejects it, because
strconv.Atoi fails with a range error on it: the claim's "succeeds iff the
supplied value is a string containing a base-10 integer literal" is false
at this input. -/
theorem integer_literal_out_of_range_rejected :
    specIntegerLiteral "9223372036854775808" = true ∧
    validateCredentialLinkAttribute ⟨"age", "", "integer", ""⟩ "age"
        (JValue.str "9223372036854775808")
      = Except.error (ConvErr.notAnInteger "age") :=
  ⟨rfl, rfl⟩

/-- C6: for every descriptor of declared type "boolean", the conversion of
a matched attribute succeeds exactly on the strconv.ParseBool literals
(the canonical spellings 1, t, T, TRUE, true, True and 0, f, F, FALSE,
false, False), any other string fails with the ParseError message, and a
non-string value fails with the TypeMismatchError message. -/
theorem boolean_conversion_iff_bool_literal (a : Attribute) (name : String) (v : JValue)
    (ha : a.type = "boolean") :
    validateCredentialLinkAttribute a name v =
      match v with
      | JValue.str s =>
          if s = "1" ∨ s = "t" ∨ s = "T" ∨ s = "TRUE" ∨ s = "true" ∨ s = "True"
          then Except.ok (JValue.bool true)
          else if s = "0" ∨ s = "f" ∨ s = "F" ∨ s = "FALSE" ∨ s = "false" ∨ s = "False"
          then Except.ok (JValue.bool false)
          else Except.error (ConvErr.notABoolean name)
      | _ => Except.error (ConvErr.typeMismatch name) := by
  cases v <;> simp [validateCredentialLinkAttribute, parseBool, ha] <;> (split_ifs <;> rfl)

/-- Witness for C6: active:boolean with value "true" converts to the
boolean true, and with value "notabool" fails with the ParseError message. -/
theorem boolean_conversion_iff_bool_literal_witness :
    validateCredentialLinkAttribute ⟨"active", "", "boolean", ""⟩ "active" (JValue.str "true")
        = Except.ok (JValue.bool true) ∧
    validateCredentialLinkAttribute ⟨"active", "", "boolean", ""⟩ "active" (JValue.str "notabool")
        = Except.error (ConvErr.notABoolean "active") := by
  constructor
  · rw [boolean_conversion_iff_bool_literal ⟨"active", "", "boolean", ""⟩ "active"
      (JValue.str "true") rfl]
    rfl
  · rw [boolean_conversion_iff_bool_literal ⟨"active", "", "boolean", ""⟩ "active"
      (JValue.str "notabool") rfl]
    rfl

/-- C7: for every descriptor whose declared type is none of "string",
"integer", "boolean", conversion of a matched attribute fails with the
UnsupportedTypeError message naming the attribute, whatever value is
supplied. -/
theorem unsupported_type_always_fails (a : Attribute) (name : String) (v : JValue)
    (h1 : a.type ≠ "string") (h2 : a.type ≠ "integer") (h3 : a.type ≠ "boolean") :
    validateCredentialLinkAttribute a name v
      = Except.error (ConvErr.unsupportedType name) := by
  simp [validateCredentialLinkAttribute, h1, h2, h3]

/-- Witness for C7: a descriptor of type "date" rejects the value
"2000-01-01" with the UnsupportedTypeError message. -/
theorem unsupported_type_always_fails_witness :
    validateCredentialLinkAttribute ⟨"birthday", "", "date", ""⟩ "birthday"
        (JValue.str "2000-01-01")
      = Except.error (ConvErr.unsupportedType "birthday") :=
  unsupported_type_always_fails ⟨"birthday", "", "date", ""⟩ "birthday"
    (JValue.str "2000-01-01") (by decide) (by decide) (by decide)

theorem validateCLA_ne_countMismatch (a : Attribute) (name : String) (v : JValue) :
    validateCredentialLinkAttribute a name v ≠ Except.error ConvErr.countMismatch := by
  unfold validateCredentialLinkAttribute
  split_ifs <;> cases v <;> simp <;> split <;> simp

theorem validateLoop_classify (attrs : List CredentialAttributes) (sas : List Attribute)
    (acc : List CredentialAttributes) :
    ((∃ out, validateLoop attrs sas acc = ConvResult.ok out) ↔
      ∃ rem, remainingDescriptors attrs sas = some rem ∧ rem.length = 1)
    ∧ (validateLoop attrs sas acc = ConvResult.error ConvErr.countMismatch ↔
      ∃ rem, remainingDescriptors attrs sas = some rem ∧ rem.length ≠ 1) := by
  induction attrs generalizing sas acc with
  | nil =>
      by_cases h : sas.length = 1 <;> simp [validateLoop, remainingDescriptors, h]
  | cons attr rest ih =>
      simp only [validateLoop, remainingDescriptors]
      by_cases hneg : findIndexForSchemaAttribute sas attr.name < 0
      · simp [hneg]
      · simp only [if_neg hneg]
        cases hget : sas[(findIndexForSchemaAttribute sas attr.name).toNat]? with
        | none => simp
        | some sa =>
            cases hval : validateCredentialLinkAttribute sa attr.name attr.value with
            | error e =>
                have hne : e ≠ ConvErr.countMismatch := by
                  intro hE
                  exact validateCLA_ne_countMismatch sa attr.name attr.value (hE ▸ hval)
                simp [hval, hne]
            | ok v =>
                simp only [hval]
                exact ih (removeIndex sas (findIndexForSchemaAttribute sas attr.name).toNat) _

/-- C2: when every supplied attribute is processed without a conversion
error (remainingDescriptors yields the surviving working set),
ValidateAndConvert succeeds exactly when one descriptor remains after the
pass, and fails with the CountMismatchError message exactly when the
remaining count is any other number (0 included). -/
theorem convert_ok_iff_one_descriptor_remains (content : List (String × JValue))
    (attrs : List CredentialAttributes) (sas : List Attribute)
    (hext : attributeNames content = Except.ok sas) :
    ((∃ out, validateAndConvert content attrs = ConvResult.ok out) ↔
      ∃ rem, remainingDescriptors attrs sas = some rem ∧ rem.length = 1)
    ∧ (validateAndConvert content attrs = ConvResult.error ConvErr.countMismatch ↔
      ∃ rem, remainingDescriptors attrs sas = some rem ∧ rem.length ≠ 1) := by
  unfold validateAndConvert
  rw [hext]
  exact validateLoop_classify attrs sas []

/-- Witness for C2: supplying a value for all three descriptors of
`docExample` (id included) leaves zero descriptors and fails with the
CountMismatchError message. -/
theorem convert_ok_iff_one_descriptor_remains_witness :
    validateAndConvert docExample attrsThree = ConvResult.error ConvErr.countMismatch :=
  ((convert_ok_iff_one_descriptor_remains docExample attrsThree descExample rfl).2).mpr
    ⟨[], rfl, by decide⟩

theorem validateLoop_ok_names (attrs : List CredentialAttributes) (sas : List Attribute)
    (acc out : List CredentialAttributes)
    (h : validateLoop attrs sas acc = ConvResult.ok out) :
    out.map (fun a => a.name)
      = acc.reverse.map (fun a => a.name) ++ attrs.map (fun a => a.name) := by
  induction attrs generalizing sas acc with
  | nil =>
      revert h
      unfold validateLoop
      by_cases hl : sas.length ≠ 1
      · simp [hl]
      · simp only [hl, if_false, ite_false]
        intro h
        cases h
        simp
  | cons attr rest ih =>
      revert h
      simp only [validateLoop]
      by_cases hneg : findIndexForSchemaAttribute sas attr.name < 0
      · simp [hneg]
      · simp only [if_neg hneg]
        cases hget : sas[(findIndexForSchemaAttribute sas attr.name).toNat]? with
        | none => simp
        | some sa =>
            cases hval : validateCredentialLinkAttribute sa attr.name attr.value with
            | error e => simp [hval]
            | ok v =>
                simp only [hval]
                intro h
                have := ih (removeIndex sas (findIndexForSchemaAttribute sas attr.name).toNat)
                  ({ attr with value := v } :: acc) h
                simpa using this

/-- C8: whenever ValidateAndConvert succeeds, the returned sequence has
the same length and the same names in the same order as the supplied
sequence; only the values are replaced. -/
theorem convert_preserves_order_and_names (content : List (String × JValue))
    (attrs out : List CredentialAttributes)
    (h : validateAndConvert content attrs = ConvResult.ok out) :
    out.length = attrs.length ∧
    out.map (fun a => a.name) = attrs.map (fun a => a.name) := by
  unfold validateAndConvert at h
  cases hext : attributeNames content with
  | error e => rw [hext] at h; cases h
  | ok sas =>
      rw [hext] at h
      have hnames := validateLoop_ok_names attrs sas [] out h
      simp only [List.reverse_nil, List.map_nil, List.nil_append] at hnames
      refine ⟨?_, hnames⟩
      have := congrArg List.length hnames
      simpa using this

/-- Witness for C8 (the spec's round trip): converting age:"42",
name:"alice" against `docExample` yields the same names in order with the
age value parsed to the integer 42. -/
theorem convert_preserves_order_and_names_witness :
    validateAndConvert docExample attrsTwo = ConvResult.ok attrsTwoConverted ∧
    attrsTwoConverted.length = attrsTwo.length ∧
    attrsTwoConverted.map (fun a => a.name) = attrsTwo.map (fun a => a.name) :=
  ⟨by rfl, convert_preserves_order_and_names docExample attrsTwo attrsTwoConverted (by rfl)⟩

/-- C1 (code bug): against a schema declaring only the id descriptor, the
supplied attribute name "other" matches no descriptor, so
findIndexForSchemaAttribute returns the sentinel -1; ValidateAndConvert
then reads the descriptor slice at index -1 unchecked — the Go panic
modelled by `crash` — instead of returning the AttributeNotFoundError the
claim requires. -/
theorem unmatched_attribute_name_crashes :
    findIndexForSchemaAttribute descSingle "other" = -1 ∧
    validateAndConvert docSingle [⟨"other", JValue.str "x"⟩] = ConvResult.crash :=
  ⟨rfl, by rfl⟩

/-- C10: whenever attribute extraction fails, for any reason and for any
supplied attribute list, ValidateAndConvert returns the one generic
ErrProcessSchema value: the result is a constant that does not depend on
the extraction error, so callers cannot observe which path segment or key
was at fault. -/
theorem extraction_failure_collapses_to_generic_error (content : List (String × JValue))
    (attrs : List CredentialAttributes) (e : ExtractErr)
    (h : attributeNames content = Except.error e) :
    validateAndConvert content attrs = ConvResult.error ConvErr.processSchema := by
  unfold validateAndConvert
  rw [h]

/-- Witness for C10: the empty document fails extraction (missing
properties) and ValidateAndConvert reports only the generic error. -/
theorem extraction_failure_collapses_to_generic_error_witness :
    validateAndConvert [] [] = ConvResult.error ConvErr.processSchema :=
  extraction_failure_collapses_to_generic_error [] [] ExtractErr.missingProperties rfl

theorem attributeNames_eq_decodeAttrList (content props credSubject inner : List (String × JValue))
    (h1 : asObj (jlookup content "properties") = some props)
    (h2 : asObj (jlookup props "credentialSubject") = some credSubject)
    (h3 : asObj (jlookup credSubject "properties") = some inner) :
    attributeNames content = decodeAttrList inner := by
  simp only [attributeNames, h1, h2, h3]

theorem decodeAttrList_ok_of_decodable (props : List (String × JValue))
    (h : ∀ kv ∈ props, (decodeAttribute kv.2).isOk = true) :
    ∃ attrs, decodeAttrList props = Except.ok attrs ∧
      attrs.map (fun a => a.id) = props.map Prod.fst := by
  induction props with
  | nil => exact ⟨[], rfl, rfl⟩
  | cons kv rest ih =>
      obtain ⟨k, prop⟩ := kv
      have hk : (decodeAttribute prop).isOk = true := h ⟨k, prop⟩ (by simp)
      obtain ⟨attr, hattr⟩ : ∃ a, decodeAttribute prop = Except.ok a := by
        cases hd : decodeAttribute prop with
        | ok a => exact ⟨a, rfl⟩
        | error e => rw [hd] at hk; simp [Except.isOk, Except.toBool] at hk
      obtain ⟨attrs, hrest, hids⟩ := ih (fun kv hkv => h kv (by simp [hkv]))
      refine ⟨{ attr with id := k } :: attrs, ?_, ?_⟩
      · simp [decodeAttrList, hattr, hrest]
      · simp [hids]

/-- C3: for every document whose three-level path resolves to a mapping of
N >= 1 decodable sub-mappings, extraction succeeds with exactly N
descriptors whose ids are, in order, the keys of the mapping (the map key
overrides any id field inside the sub-mapping, as `docExample` exercises). -/
theorem extract_returns_descriptor_per_key
    (content props credSubject inner : List (String × JValue))
    (h1 : asObj (jlookup content "properties") = some props)
    (h2 : asObj (jlookup props "credentialSubject") = some credSubject)
    (h3 : asObj (jlookup credSubject "properties") = some inner)
    (hdec : ∀ kv ∈ inner, (decodeAttribute kv.2).isOk = true)
    (_hN : 1 ≤ inner.length) :
    ∃ attrs, attributeNames content = Except.ok attrs ∧
      attrs.length = inner.length ∧
      attrs.map (fun a => a.id) = inner.map Prod.fst := by
  obtain ⟨attrs, hdl, hids⟩ := decodeAttrList_ok_of_decodable inner hdec
  refine ⟨attrs, ?_, ?_, hids⟩
  · rw [attributeNames_eq_decodeAttrList content props credSubject inner h1 h2 h3]
    exact hdl
  · have := congrArg List.length hids
    simpa using this

/-- Witness for C3: `docExample` has three decodable attributes and the
extracted ids are the keys age, name, id; the bogus inner id field of the
id sub-mapping is overridden by its key. -/
theorem extract_returns_descriptor_per_key_witness :
    ∃ attrs, attributeNames docExample = Except.ok attrs ∧
      attrs.length = 3 ∧
      attrs.map (fun a => a.id) = ["age", "name", "id"] := by
  obtain ⟨attrs, h1, h2, h3⟩ := extract_returns_descriptor_per_key docExample _ _ _
    (by rfl) (by rfl) (by rfl) (by decide) (by decide)
  exact ⟨attrs, h1, h2, h3⟩

/-- C4: each of the three path levels failing to be present as a mapping
yields its own distinct error naming that level, and extraction returns
only that error, with no attribute list. -/
theorem extract_missing_level_errors (content : List (String × JValue)) :
    (asObj (jlookup content "properties") = none →
      attributeNames content = Except.error ExtractErr.missingProperties)
    ∧ (∀ props, asObj (jlookup content "properties") = some props →
        asObj (jlookup props "credentialSubject") = none →
        attributeNames content = Except.error ExtractErr.missingCredentialSubject)
    ∧ (∀ props credSubject, asObj (jlookup content "properties") = some props →
        asObj (jlookup props "credentialSubject") = some credSubject →
        asObj (jlookup credSubject "properties") = none →
        attributeNames content = Except.error ExtractErr.missingCredSubjectProperties) := by
  refine ⟨?_, ?_, ?_⟩
  · intro h
    simp only [attributeNames, h]
  · intro props h1 h2
    simp only [attributeNames, h1, h2]
  · intro props credSubject h1 h2 h3
    simp only [attributeNames, h1, h2, h3]

/-- Witness for C4: a document with no properties mapping, one whose
credentialSubject is missing, and one whose innermost properties level is
a string, each produce their own level's error. -/
theorem extract_missing_level_errors_witness :
    attributeNames [] = Except.error ExtractErr.missingProperties
    ∧ attributeNames [("properties", JValue.obj [])]
        = Except.error ExtractErr.missingCredentialSubject
    ∧ attributeNames
        [("properties", JValue.obj
          [("credentialSubject", JValue.obj [("properties", JValue.str "oops")])])]
        = Except.error ExtractErr.missingCredSubjectProperties :=
  ⟨(extract_missing_level_errors []).1 rfl,
   (extract_missing_level_errors [("properties", JValue.obj [])]).2.1 [] rfl rfl,
   (extract_missing_level_errors
      [("properties", JValue.obj
        [("credentialSubject", JValue.obj [("properties", JValue.str "oops")])])]).2.2
      [("credentialSubject", JValue.obj [("properties", JValue.str "oops")])]
      [("properties", JValue.str "oops")] rfl rfl rfl⟩

theorem decodeAttrList_first_error (pre post : List (String × JValue)) (k : String)
    (prop : JValue)
    (hpre : ∀ kv ∈ pre, (decodeAttribute kv.2).isOk = true)
    (hbad : decodeAttribute prop = Except.error ()) :
    decodeAttrList (pre ++ (k, prop) :: post) = Except.error (ExtractErr.decoding prop) := by
  induction pre with
  | nil => simp [decodeAttrList, hbad]
  | cons kv rest ih =>
      obtain ⟨k0, p0⟩ := kv
      have h0 : (decodeAttribute p0).isOk = true := hpre ⟨k0, p0⟩ (by simp)
      obtain ⟨a0, ha0⟩ : ∃ a, decodeAttribute p0 = Except.ok a := by
        cases hd : decodeAttribute p0 with
        | ok a => exact ⟨a, rfl⟩
        | error e => rw [hd] at h0; simp [Except.isOk, Except.toBool] at h0
      have htail := ih (fun kv hkv => hpre kv (by simp [hkv]))
      simp [decodeAttrList, ha0, htail]

/-- C9 (amended): for every well-formed three-level document whose
innermost mapping consists of decodable entries followed by a first
malformed sub-mapping, extraction fails with a DecodingError carrying the
offending sub-mapping value itself — the Go error interpolates `prop`,
not the map key, into "parsing attribute <%s>". -/
theorem decoding_error_carries_sub_mapping
    (content props credSubject inner pre post : List (String × JValue))
    (k : String) (prop : JValue)
    (h1 : asObj (jlookup content "properties") = some props)
    (h2 : asObj (jlookup props "credentialSubject") = some credSubject)
    (h3 : asObj (jlookup credSubject "properties") = some inner)
    (hinner : inner = pre ++ (k, prop) :: post)
    (hpre : ∀ kv ∈ pre, (decodeAttribute kv.2).isOk = true)
    (hbad : decodeAttribute prop = Except.error ()) :
    attributeNames content = Except.error (ExtractErr.decoding prop) := by
  rw [attributeNames_eq_decodeAttrList content props credSubject inner h1 h2 h3, hinner]
  exact decodeAttrList_first_error pre post k prop hpre hbad

/-- Witness for C9 (amended): in `docBadSecond` the malformed sub-mapping
under key "age" follows a well-formed one, and extraction reports the
DecodingError carrying the malformed sub-mapping. -/
theorem decoding_error_carries_sub_mapping_witness :
    attributeNames docBadSecond = Except.error (ExtractErr.decoding badProp) := by
  exact decoding_error_carries_sub_mapping docBadSecond _ _ _
    [("name", JValue.obj [("type", JValue.str "string")])] [] "age" badProp
    (by rfl) (by rfl) (by rfl) rfl (by decide) (by rfl)

/-- C9 counterexample: `docBadAge` and `docBadName` place the same
malformed sub-mapping under the different keys "age" and "name", yet
extraction returns the identical error for both, so the DecodingError
cannot name the offending key; it reports the sub-mapping value instead. -/
theorem decoding_error_same_for_different_keys :
    attributeNames docBadAge = Except.error (ExtractErr.decoding badProp)
    ∧ attributeNames docBadName = Except.error (ExtractErr.decoding badProp) :=
  ⟨by rfl, by rfl⟩

end IssuerNode
